import Mathlib

/-!
# A verification model of the jumoog/socks5-server SOCKS5 proxy

This file gives a shallow embedding, in Lean 4, of the parts of the
jumoog/socks5-server repository that its specification talks about:

* the `netip.Addr` address values used by the pre-authentication admission
  gate (Go standard library `net/netip`, embedded here faithfully for the
  operations the repository calls: `ParseAddr`, `Addr.Compare`,
  `Addr.IsValid`, `Addr.Is4`, `Prefix.Contains`);
* the server construction `New`, the whitelist setter `SetIPWhitelist`,
  the reserved-range checks `IsDockerNetwork` / `IsTailScale`, and the
  per-connection handler `ServeConn` (go-socks5/socks5.go in the repo);
* the startup whitelist construction in `main` (server.go).

Strings from Go are modelled as lists of byte values (`List Nat`, each
value `< 256` for real inputs); Go's byte-wise string operations translate
directly.  The handler's interaction with a connection is modelled as a
trace: the handler consumes a prefix of the client's input byte stream and
produces the list of bytes it writes back plus the log events it emits.
-/

namespace Socks5

/-- Byte-list view of an ASCII string, matching Go's byte-wise view of a
`string`.  Used only to write concrete inputs readably. -/
def strBytes (s : String) : List Nat :=
  s.toList.map Char.toNat

/-! ## The `net/netip` address model

Go's `netip.Addr` is either the invalid zero `Addr`, an IPv4 address
(4 bytes), or an IPv6 address (16 bytes plus a zone string).  Internally
Go stores every address as a 128-bit pair `(hi, lo)`; IPv4 addresses are
stored in IPv4-mapped form (`::ffff:a.b.c.d`).  We keep the three-way tag
explicit and recover the internal pair through `addrHi` / `addrLo`. -/

/-- Model of `netip.Addr`: the invalid zero Addr, an IPv4 address with its
four octets, or an IPv6 address with its two 64-bit halves and zone. -/
inductive NetipAddr : Type where
  | invalid : NetipAddr
  | v4 (a b c d : Nat) : NetipAddr
  | v6 (hi lo : Nat) (zone : List Nat) : NetipAddr
deriving DecidableEq, Repr

namespace NetipAddr

/-- `Addr.BitLen`: 0 for the zero Addr, 32 for IPv4, 128 for IPv6. -/
def bitLen : NetipAddr → Nat
  | .invalid => 0
  | .v4 _ _ _ _ => 32
  | .v6 _ _ _ => 128

/-- `Addr.IsValid`: everything but the zero Addr. -/
def isValid : NetipAddr → Bool
  | .invalid => false
  | _ => true

/-- `Addr.Is4`: true exactly for IPv4 addresses (false for the zero Addr
and for IPv6, including IPv4-mapped IPv6). -/
def is4 : NetipAddr → Bool
  | .v4 _ _ _ _ => true
  | _ => false

/-- `Addr.Is6`: true exactly for IPv6 addresses. -/
def is6 : NetipAddr → Bool
  | .v6 _ _ _ => true
  | _ => false

/-- The 32-bit value of an IPv4 address's four octets. -/
def v4val (a b c d : Nat) : Nat :=
  a * 2 ^ 24 + b * 2 ^ 16 + c * 2 ^ 8 + d

/-- High 64 bits of Go's internal 128-bit representation (`ip.addr.hi`). -/
def addrHi : NetipAddr → Nat
  | .invalid => 0
  | .v4 _ _ _ _ => 0
  | .v6 hi _ _ => hi

/-- Low 64 bits of Go's internal 128-bit representation (`ip.addr.lo`);
IPv4 addresses are stored IPv4-mapped, `0xffff00000000 | value`. -/
def addrLo : NetipAddr → Nat
  | .invalid => 0
  | .v4 a b c d => 0xffff00000000 + v4val a b c d
  | .v6 _ lo _ => lo

/-- `Addr.Zone` (bytes of the zone string; empty for non-IPv6). -/
def zone : NetipAddr → List Nat
  | .v6 _ _ z => z
  | _ => []

/-- Whether the address carries a zone (`ip.hasZone()` in Go). -/
def hasZone (ip : NetipAddr) : Bool :=
  ip.zone ≠ []

/-- Go's byte-wise string comparison, on byte lists: -1 / 0 / 1. -/
def bytesCompare : List Nat → List Nat → Int
  | [], [] => 0
  | [], _ :: _ => -1
  | _ :: _, [] => 1
  | a :: as, b :: bs =>
    if a < b then -1 else if b < a then 1 else bytesCompare as bs

/-- `Addr.Compare`: order by bit length (family), then the internal
128-bit value (`hi`, then `lo`), then — for two IPv6 addresses — the
zone string. -/
def compare (ip ip2 : NetipAddr) : Int :=
  if ip.bitLen < ip2.bitLen then -1
  else if ip2.bitLen < ip.bitLen then 1
  else if ip.addrHi < ip2.addrHi then -1
  else if ip2.addrHi < ip.addrHi then 1
  else if ip.addrLo < ip2.addrLo then -1
  else if ip2.addrLo < ip.addrLo then 1
  else if ip.is6 && ip2.is6 then bytesCompare ip.zone ip2.zone
  else 0

/-- Canonical addresses: the representations actually produced by
`net/netip` constructors (octets are bytes, halves are 64-bit). -/
def Canonical : NetipAddr → Prop
  | .invalid => True
  | .v4 a b c d => a < 256 ∧ b < 256 ∧ c < 256 ∧ d < 256
  | .v6 hi lo _ => hi < 2 ^ 64 ∧ lo < 2 ^ 64

instance : DecidablePred Canonical := by
  intro ip
  cases ip <;> simp [Canonical] <;> infer_instance

end NetipAddr

/-! ## `netip.Prefix` and `Prefix.Contains` -/

/-- Model of `netip.Prefix`: an address plus a prefix length in bits. -/
structure NetPrefix where
  addr : NetipAddr
  bits : Nat
deriving DecidableEq, Repr

namespace NetPrefix

/-- `Prefix.IsValid`: the prefix length fits the address's bit length and
the address is valid. -/
def isValid (p : NetPrefix) : Bool :=
  p.addr.isValid && decide (p.bits ≤ p.addr.bitLen)

/-- `mask6(b)`: the 128-bit mask with the top `b` bits set, as its two
64-bit halves. -/
def mask6hi (b : Nat) : Nat :=
  if b ≤ 64 then 2 ^ 64 - 2 ^ (64 - b) else 2 ^ 64 - 1

/-- Low half of `mask6(b)`. -/
def mask6lo (b : Nat) : Nat :=
  if b ≤ 64 then 0 else 2 ^ 64 - 2 ^ (128 - b)

/-- `Prefix.Contains`: reject zoned addresses and family mismatches, then
compare the masked address bits — for IPv4, by xoring the 32-bit values
and shifting away the `32 - bits` low bits; for IPv6, by xoring the
128-bit halves and masking with `mask6`. -/
def contains (p : NetPrefix) (ip : NetipAddr) : Bool :=
  if !p.isValid || ip.hasZone then false
  else if p.addr.bitLen = 0 || ip.bitLen = 0 || p.addr.bitLen ≠ ip.bitLen then false
  else if ip.is4 then
    decide ((ip.addrLo % 2 ^ 32 ^^^ p.addr.addrLo % 2 ^ 32) >>> (32 - p.bits) = 0)
  else
    decide (((ip.addrHi ^^^ p.addr.addrHi) &&& mask6hi p.bits) |||
      ((ip.addrLo ^^^ p.addr.addrLo) &&& mask6lo p.bits) = 0)

end NetPrefix

/-! ## `netip.ParseAddr`

Translated from Go's `net/netip` parser: a byte scan dispatches on the
first `.` / `:` / `%` to the IPv4 or IPv6 grammar; a string containing
none of these, or `%` first, fails. -/

/-- Loop of Go's `parseIPv4`.  `first` is true at offset 0, `digLen`
counts digit bytes in the current field, `pos` counts completed fields,
`fields` holds the completed field values. -/
def parseIPv4Loop : List Nat → Bool → Nat → Nat → Nat → List Nat → Option NetipAddr
  | [], _, val, _, pos, fields =>
    if pos < 3 then none
    else match fields with
      | [f0, f1, f2] => some (.v4 f0 f1 f2 val)
      | _ => none
  | c :: rest, first, val, digLen, pos, fields =>
    if 48 ≤ c ∧ c ≤ 57 then
      -- a digit; reject a field with a leading zero
      if digLen = 1 ∧ val = 0 then none
      else
        let val' := val * 10 + (c - 48)
        if 255 < val' then none
        else parseIPv4Loop rest false val' (digLen + 1) pos fields
    else if c = 46 then
      -- a dot: not first, not last, not right after another dot,
      -- and at most four fields
      if first ∨ rest = [] ∨ digLen = 0 then none
      else if pos = 3 then none
      else parseIPv4Loop rest false 0 0 (pos + 1) (fields ++ [val])
    else none

/-- Go `parseIPv4` on the bytes of a string. -/
def parseIPv4 (s : List Nat) : Option NetipAddr :=
  parseIPv4Loop s true 0 0 0 []

/-- Value of one hex digit byte, if it is one. -/
def hexDigit (c : Nat) : Option Nat :=
  if 48 ≤ c ∧ c ≤ 57 then some (c - 48)
  else if 97 ≤ c ∧ c ≤ 102 then some (c - 97 + 10)
  else if 65 ≤ c ∧ c ≤ 70 then some (c - 65 + 10)
  else none

/-- Maximal run of hex digits (the inlined hex scan of Go's
`parseIPv6`): the accumulated value, the number of digit bytes, and the
rest; `none` when the accumulator leaves 16 bits. -/
def hexRun : List Nat → Nat → Option (Nat × Nat × List Nat)
  | [], acc => some (acc, 0, [])
  | c :: rest, acc =>
    match hexDigit c with
    | none => some (acc, 0, c :: rest)
    | some d =>
      let acc' := acc * 16 + d
      if 65535 < acc' then none
      else
        match hexRun rest acc' with
        | none => none
        | some (a, off, r) => some (a, off + 1, r)

/-- Big-endian value of a byte list. -/
def beVal (bs : List Nat) : Nat :=
  bs.foldl (fun a b => a * 256 + b) 0

/-- Go `AddrFrom16` followed by `WithZone`: a 16-byte slice as an IPv6
address. -/
def addrFrom16 (bs zone : List Nat) : NetipAddr :=
  .v6 (beVal (bs.take 8)) (beVal (bs.drop 8)) zone

/-- Main loop of Go's `parseIPv6`, parsing colon-separated 16-bit hex
fields (with at most one `::` and an optional trailing embedded IPv4)
into address bytes.  Returns the bytes parsed so far, the `::` position,
and the unconsumed rest.  The loop runs while fewer than 16 bytes are
parsed; each iteration consumes input, so the fuel (16) is never
exhausted on the loop's own terms. -/
def p6loop (fuel : Nat) (s ip : List Nat) (ellipsis : Option Nat) :
    Option (List Nat × Option Nat × List Nat) :=
  match fuel with
  | 0 => some (ip, ellipsis, s)
  | fuel + 1 =>
    if 16 ≤ ip.length then some (ip, ellipsis, s)
    else
      match hexRun s 0 with
      | none => none
      | some (acc, off, rest) =>
        if off = 0 then none
        else if rest.head? = some 46 then
          -- an embedded IPv4 address must replace the final two fields
          if ellipsis = none ∧ ip.length ≠ 12 then none
          else if 16 < ip.length + 4 then none
          else
            match parseIPv4 s with
            | some (.v4 a b c d) => some (ip ++ [a, b, c, d], ellipsis, [])
            | _ => none
        else
          let ip' := ip ++ [acc / 256, acc % 256]
          match rest with
          | [] => some (ip', ellipsis, [])
          | c :: rest2 =>
            if c ≠ 58 then none
            else
              match rest2 with
              | [] => none
              | c2 :: rest3 =>
                if c2 = 58 then
                  if ellipsis ≠ none then none
                  else
                    match rest3 with
                    | [] => some (ip', some ip'.length, [])
                    | _ => p6loop fuel rest3 ip' (some ip'.length)
                else p6loop fuel rest2 ip' ellipsis

/-- Post-processing of Go's `parseIPv6`: the whole input must be
consumed; a short parse expands the `::`; a full parse must not also
have a `::`. -/
def p6finish (r : Option (List Nat × Option Nat × List Nat)) (zone : List Nat) :
    Option NetipAddr :=
  match r with
  | none => none
  | some (ip, ellipsis, s) =>
    if s ≠ [] then none
    else if ip.length < 16 then
      match ellipsis with
      | none => none
      | some e =>
        some (addrFrom16 (ip.take e ++ List.replicate (16 - ip.length) 0 ++ ip.drop e) zone)
    else if ellipsis ≠ none then none
    else some (addrFrom16 ip zone)

/-- Go `parseIPv6` on the bytes of a string. -/
def parseIPv6 (input : List Nat) : Option NetipAddr :=
  -- split off the zone at the first '%'
  let p :=
    match input.findIdx? (fun c => c = 37) with
    | some i => (input.take i, input.drop (i + 1), true)
    | none => (input, [], false)
  let s := p.1
  let zone := p.2.1
  if p.2.2 ∧ zone = [] then none
  else
    match s with
    | 58 :: 58 :: s2 =>
      if s2 = [] then some (.v6 0 0 zone)
      else p6finish (p6loop 16 s2 [] (some 0)) zone
    | _ => p6finish (p6loop 16 s [] none) zone

/-- Go `netip.ParseAddr`: dispatch on the first `.` / `:` / `%` byte. -/
def parseAddr (s : List Nat) : Option NetipAddr :=
  match s.find? (fun c => c = 46 ∨ c = 58 ∨ c = 37) with
  | some 46 => parseIPv4 s
  | some 58 => parseIPv6 s
  | _ => none

/-- The repository's use of ParseAddr, `ip, _ := netip.ParseAddr(s)`:
the error is discarded, leaving the zero `Addr` on failure. -/
def parseAddrGo (s : List Nat) : NetipAddr :=
  (parseAddr s).getD .invalid

/-! ## Authenticators and server construction

The authenticator implementations live in the repository's auth.go,
which is not part of the provided sources; they are modelled from the
spec (§4.2, §6): a no-op method and a username/password method, each
keyed by its one-byte SOCKS5 method code. -/

/-- Modelled from the spec: the Credential Store of §3 — a mapping from
username to secret (auth.go's `CredentialStore` / `StaticCredentials`),
as an association list of byte strings. -/
def CredentialStore : Type :=
  List (List Nat × List Nat)

instance : DecidableEq CredentialStore :=
  inferInstanceAs (DecidableEq (List (List Nat × List Nat)))

/-- Modelled from the spec: `StaticCredentials.Valid` — exact-match
lookup of the username, then exact comparison of the secret. -/
def CredentialStore.valid (s : CredentialStore) (user pass : List Nat) : Bool :=
  match s.find? (fun p => p.1 = user) with
  | some p => p.2 = pass
  | none => false

/-- Modelled from the spec: the Authenticator capability (auth.go) —
the two default strategies the spec requires, the no-op method and the
username/password method. -/
inductive Authenticator : Type where
  | noAuth : Authenticator
  | userPass (creds : CredentialStore) : Authenticator
deriving DecidableEq

/-- Modelled from the spec: `Authenticator.GetCode` — the one-byte
SOCKS5 method identifier of each strategy (0 = no auth, 2 =
username/password, per RFC 1928 as referenced by the spec). -/
def Authenticator.getCode : Authenticator → Nat
  | .noAuth => 0
  | .userPass _ => 2

/-- Go map insertion on an association list: overwrite the key if
present, else append. -/
def mapInsert (m : List (Nat × Authenticator)) (k : Nat) (v : Authenticator) :
    List (Nat × Authenticator) :=
  if m.any (fun p => p.1 = k) then
    m.map (fun p => if p.1 = k then (k, v) else p)
  else m ++ [(k, v)]

/-- Go map lookup on an association list. -/
def mapLookup (m : List (Nat × Authenticator)) (k : Nat) : Option Authenticator :=
  (m.find? (fun p => p.1 = k)).map (fun p => p.2)

/-- The `Config` fields the modelled pipeline reads: the authenticator
list and the credential store.  The remaining fields (resolver, rules,
rewriter, bind IP, logger, dial) configure stages past the model's
boundary and are defaulted by `New` without affecting any claim. -/
structure Config where
  authMethods : List Authenticator
  credentials : Option CredentialStore
deriving DecidableEq

/-- The `Server` state the modelled pipeline reads: the method-code
dispatch map and the admission whitelist (`none` models the default
deny-all `isIPAllowed` closure installed by `New`; `some l` models the
closure installed by `SetIPWhitelist l`). -/
structure Server where
  authMethods : List (Nat × Authenticator)
  whitelist : Option (List NetipAddr)
deriving DecidableEq

/-- `New` (socks5.go line 62): default the authenticator list — to the
username/password method when only credentials are supplied, else to
the no-auth method — then build the method-code dispatch map and
install the default deny-all admission predicate.  (`New` in the source
can never return a non-nil error.) -/
def New (conf : Config) : Server :=
  let methods :=
    if conf.authMethods.isEmpty then
      match conf.credentials with
      | some c => [Authenticator.userPass c]
      | none => [Authenticator.noAuth]
    else conf.authMethods
  { authMethods := methods.foldl (fun m a => mapInsert m a.getCode a) []
    whitelist := none }

namespace Server

/-- `Server.SetIPWhitelist` (socks5.go line 126): replace the admission
predicate by a linear scan of the given addresses. -/
def SetIPWhitelist (s : Server) (allowedIPs : List NetipAddr) : Server :=
  { s with whitelist := some allowedIPs }

/-- The server's `isIPAllowed` predicate: the default closure denies
every address; the `SetIPWhitelist` closure scans the list with
`ip.Compare(allowedIP) == 0`. -/
def isIPAllowed (s : Server) (ip : NetipAddr) : Bool :=
  match s.whitelist with
  | none => false
  | some allowedIPs => allowedIPs.any (fun a => NetipAddr.compare ip a = 0)

/-- `Server.IsDockerNetwork` (socks5.go line 207): valid IPv4 addresses
inside 172.16.0.0/12. -/
def IsDockerNetwork (_ : Server) (ip : NetipAddr) : Bool :=
  if !ip.isValid || !ip.is4 then false
  else NetPrefix.contains ⟨.v4 172 16 0 0, 12⟩ ip

/-- `Server.IsTailScale` (socks5.go line 218): valid IPv4 addresses
inside 100.64.0.0/10. -/
def IsTailScale (_ : Server) (ip : NetipAddr) : Bool :=
  if !ip.isValid || !ip.is4 then false
  else NetPrefix.contains ⟨.v4 100 64 0 0, 10⟩ ip

end Server

/-- The whitelist addresses a server is configured with (empty when the
default deny-all predicate is still installed). -/
def Server.whitelistAddrs (s : Server) : List NetipAddr :=
  s.whitelist.getD []

/-- The four branches of the admission chain of `ServeConn`
(socks5.go lines 149–157), in source order: Docker range, Tailscale
range, whitelist, otherwise deny. -/
inductive Admission : Type where
  | docker | tailscale | allowlisted | denied
deriving DecidableEq, Repr

/-- The admission decision of `ServeConn`'s if/else chain on the parsed
client IP. -/
def admissionGate (s : Server) (ip : NetipAddr) : Admission :=
  if s.IsDockerNetwork ip then .docker
  else if s.IsTailScale ip then .tailscale
  else if s.isIPAllowed ip then .allowlisted
  else .denied

/-! ## The protocol pipeline after admission

`authenticate`, `NewRequest`, `sendReply` and the wire constants live in
the repository's auth.go / request.go, which are not part of the
provided sources; they are modelled from the spec (§4.2, §4.3, §4.6 and
the §6 wire formats).  Reads from the client are modelled by consuming
a prefix of the input byte list; writes by appending to an output byte
list. -/

/-- `addrTypeNotSupported`: reply code 8 (spec §6). -/
def addrTypeNotSupported : Nat := 8

/-- Modelled from the spec: the Authentication Context of §3 — the
method code that succeeded plus its payload (the authenticated
username, for username/password). -/
structure AuthContext where
  method : Nat
  payload : List (List Nat)
deriving DecidableEq, Repr

/-- The Address Specification (request.go's `AddrSpec` as used at
socks5.go line 194): a domain name, an IP, and a port. -/
structure AddrSpec where
  fqdn : List Nat
  ip : NetipAddr
  port : Nat
deriving DecidableEq, Repr

/-- The Request of §3 (request.go's `Request` as stamped at socks5.go
lines 191–195): command, destination, and the per-connection stamps. -/
structure Request where
  version : Nat
  command : Nat
  destAddr : AddrSpec
  authContext : Option AuthContext
  remoteAddr : Option AddrSpec
deriving DecidableEq, Repr

/-- Read exactly `n` bytes from the stream, or fail (a short read is an
I/O error for the handler). -/
def readBytes (n : Nat) (s : List Nat) : Option (List Nat × List Nat) :=
  if n ≤ s.length then some (s.take n, s.drop n) else none

/-- Modelled from the spec: the username/password sub-negotiation of
§4.2/§6 — read `VER, ULEN, UNAME, PLEN, PASSWD`, require the
sub-negotiation version 1, check the store, and answer `[1, 0]` on
success or `[1, 1]` (then fail) on mismatch.  Returns the result, the
unread rest of the input, and the bytes written. -/
def userPassNegotiate (creds : CredentialStore) (input : List Nat) (out : List Nat) :
    Except Unit AuthContext × List Nat × List Nat :=
  match input with
  | ver :: ulen :: rest =>
    if ver ≠ 1 then (.error (), rest, out)
    else
      match readBytes ulen rest with
      | none => (.error (), rest, out)
      | some (user, rest2) =>
        match rest2 with
        | plen :: rest3 =>
          match readBytes plen rest3 with
          | none => (.error (), rest3, out)
          | some (pass, rest4) =>
            if creds.valid user pass then
              (.ok ⟨2, [user]⟩, rest4, out ++ [1, 0])
            else (.error (), rest4, out ++ [1, 1])
        | [] => (.error (), [], out)
  | _ => (.error (), [], out)

/-- Modelled from the spec: `Server.authenticate` (§4.2) — read the
client's method count and method list, select the first mutually
supported method, answer `[5, method]` and run its sub-protocol, or
answer `[5, 255]` and fail when no method is supported. -/
def authenticate (methods : List (Nat × Authenticator)) (input : List Nat) :
    Except Unit AuthContext × List Nat × List Nat :=
  match input with
  | [] => (.error (), [], [])
  | n :: rest =>
    match readBytes n rest with
    | none => (.error (), rest, [])
    | some (offered, rest2) =>
      match offered.find? (fun m => (mapLookup methods m).isSome) with
      | none => (.error (), rest2, [5, 255])
      | some m =>
        match mapLookup methods m with
        | some .noAuth => (.ok ⟨0, []⟩, rest2, [5, m])
        | some (.userPass creds) => userPassNegotiate creds rest2 [5, m]
        | none => (.error (), rest2, [5, 255])

/-- The request-decoding failures of §4.3: the distinguished
unrecognized-address-type error, an undecodable header, and a short
read. -/
inductive ReqError : Type where
  | unrecognizedAddrType | badHeader | shortRead
deriving DecidableEq, Repr

/-- Modelled from the spec: the address-family dispatch of §4.3/§6 —
one byte selects IPv4 (4 address bytes), domain (1 length byte plus
that many bytes), or IPv6 (16 address bytes), each followed by a
2-byte big-endian port; any other family byte is the distinguished
unrecognized-address-type error. -/
def readAddrSpec (input : List Nat) : Except ReqError AddrSpec × List Nat :=
  match input with
  | [] => (.error .shortRead, [])
  | atyp :: rest =>
    if atyp = 1 then
      match rest with
      | a :: b :: c :: d :: ph :: pl :: rest2 =>
        (.ok ⟨[], .v4 a b c d, ph * 256 + pl⟩, rest2)
      | _ => (.error .shortRead, rest)
    else if atyp = 4 then
      match readBytes 16 rest with
      | none => (.error .shortRead, rest)
      | some (bs, rest2) =>
        match rest2 with
        | ph :: pl :: rest3 => (.ok ⟨[], addrFrom16 bs [], ph * 256 + pl⟩, rest3)
        | _ => (.error .shortRead, rest2)
    else if atyp = 3 then
      match rest with
      | len :: rest2 =>
        match readBytes len rest2 with
        | none => (.error .shortRead, rest2)
        | some (fqdn, rest3) =>
          match rest3 with
          | ph :: pl :: rest4 => (.ok ⟨fqdn, .invalid, ph * 256 + pl⟩, rest4)
          | _ => (.error .shortRead, rest3)
      | [] => (.error .shortRead, [])
    else (.error .unrecognizedAddrType, rest)

/-- Modelled from the spec: `NewRequest` (§4.3/§6) — read the 3-byte
header `VER, CMD, RSV`, require version 5, then decode the destination
Address Specification; the per-connection stamps start empty. -/
def newRequest (input : List Nat) : Except ReqError Request × List Nat :=
  match input with
  | ver :: cmd :: _rsv :: rest =>
    if ver ≠ 5 then (.error .badHeader, rest)
    else
      match readAddrSpec rest with
      | (.error e, rest2) => (.error e, rest2)
      | (.ok dest, rest2) => (.ok ⟨5, cmd, dest, none, none⟩, rest2)
  | _ => (.error .shortRead, [])

/-- Modelled from the spec: `sendReply` (§4.6) — one reply layout,
`VER, REP, RSV, ATYP, BND.ADDR, BND.PORT`, tolerating an absent
address by emitting the zero-valued IPv4 address and port; an address
of no encodable family cannot be formatted. -/
def sendReplyBytes (resp : Nat) (addr : Option AddrSpec) : Option (List Nat) :=
  match addr with
  | none => some ([5, resp, 0] ++ [1, 0, 0, 0, 0, 0, 0])
  | some a =>
    if a.fqdn ≠ [] then
      some ([5, resp, 0] ++ [3, a.fqdn.length] ++ a.fqdn ++ [a.port / 256, a.port % 256])
    else
      match a.ip with
      | .v4 x y z w => some ([5, resp, 0] ++ [1, x, y, z, w] ++ [a.port / 256, a.port % 256])
      | .v6 hi lo _ =>
        some ([5, resp, 0, 4] ++ (List.range 8).map (fun i => hi / 256 ^ (7 - i) % 256)
          ++ (List.range 8).map (fun i => lo / 256 ^ (7 - i) % 256)
          ++ [a.port / 256, a.port % 256])
      | .invalid => none

/-! ## `ServeConn` -/

/-- One accepted connection, as the handler observes it:

* `hostResult` — the outcome of
  `net.SplitHostPort(conn.RemoteAddr().String())` at socks5.go line
  143: the host part of the transport's peer address, or an error;
* `tcpRemote` — the `*net.TCPAddr` downcast of the peer address at
  line 192: its raw `IP` byte slice and its `Port`, when the peer is a
  TCP address;
* `input` — the byte stream the client sends. -/
instance (ε α : Type) [DecidableEq ε] [DecidableEq α] : DecidableEq (Except ε α) :=
  fun a b =>
    match a, b with
    | .error x, .error y =>
      if h : x = y then .isTrue (by rw [h]) else .isFalse (by simp [h])
    | .ok x, .ok y =>
      if h : x = y then .isTrue (by rw [h]) else .isFalse (by simp [h])
    | .error _, .ok _ => .isFalse (by simp)
    | .ok _, .error _ => .isFalse (by simp)

structure Conn where
  hostResult : Except Unit (List Nat)
  tcpRemote : Option (List Nat × Nat)
  input : List Nat
deriving DecidableEq

/-- The log lines `ServeConn` emits, by call site. -/
inductive LogEvent : Type where
  | splitError | dockerConn | tailscaleConn | allowedConn | rejectedConn
  | versionReadError | badVersion | authError | requestError
deriving DecidableEq, Repr

/-- What one `ServeConn` run did: whether it reached command dispatch
without error, the unread rest of the client's input, the bytes written
to the client, the log events, and the stamped Request (when one was
built).  The deferred `conn.Close()` runs when `ServeConn` returns, so
a `false` outcome is a closed connection with exactly `output` on the
wire. -/
structure ServeResult where
  ok : Bool
  remaining : List Nat
  output : List Nat
  logs : List LogEvent
  request : Option Request
deriving DecidableEq

/-- `ServeConn` from the version-byte read on (socks5.go lines
160–204, stopping at the model's boundary, the `handleRequest` call):
read one byte and require version 5; authenticate; decode the request,
replying with code 8 (and nothing else) exactly on the
unrecognized-address-type failure; stamp the Request with the
Authentication Context and with the parse of the raw
`client.IP` bytes plus `client.Port`. -/
def protocolPhase (s : Server) (c : Conn) : ServeResult :=
  match c.input with
  | [] => ⟨false, [], [], [.versionReadError], none⟩
  | v :: rest =>
    if v ≠ 5 then ⟨false, rest, [], [.badVersion], none⟩
    else
      match authenticate s.authMethods rest with
      | (.error _, rest2, out) => ⟨false, rest2, out, [.authError], none⟩
      | (.ok ctx, rest2, out) =>
        match newRequest rest2 with
        | (.error e, rest3) =>
          if e = .unrecognizedAddrType then
            match sendReplyBytes addrTypeNotSupported none with
            | some reply => ⟨false, rest3, out ++ reply, [.requestError], none⟩
            | none => ⟨false, rest3, out, [.requestError], none⟩
          else ⟨false, rest3, out, [.requestError], none⟩
        | (.ok req, rest3) =>
          let req := { req with authContext := some ctx }
          let req :=
            match c.tcpRemote with
            | some (ipBytes, port) =>
              { req with remoteAddr := some ⟨[], parseAddrGo ipBytes, port⟩ }
            | none => req
          ⟨true, rest3, out, [], some req⟩

/-- The protocol phase prefixed by the admission-branch log line. -/
def serveConnAfterAdmission (s : Server) (c : Conn) (admLog : LogEvent) : ServeResult :=
  let r := protocolPhase s c
  ⟨r.ok, r.remaining, r.output, admLog :: r.logs, r.request⟩

/-- `Server.ServeConn` (socks5.go line 138): split the peer address,
parse the client IP discarding any error, run the admission chain —
denial returns an error having read and written nothing — and then
run the protocol pipeline. -/
def serveConn (s : Server) (c : Conn) : ServeResult :=
  match c.hostResult with
  | .error _ => ⟨false, c.input, [], [.splitError], none⟩
  | .ok host =>
    let ip := parseAddrGo host
    match admissionGate s ip with
    | .docker => serveConnAfterAdmission s c .dockerConn
    | .tailscale => serveConnAfterAdmission s c .tailscaleConn
    | .allowlisted => serveConnAfterAdmission s c .allowedConn
    | .denied => ⟨false, c.input, [], [.rejectedConn], none⟩

/-! ## Startup whitelist construction (server.go) -/

/-- The whitelist `main` builds (server.go lines 50–54): parse each
`ALLOWED_IPS` entry with `netip.ParseAddr`, discarding parse errors —
a failed entry stays the zero `Addr`. -/
def mainWhitelist (entries : List (List Nat)) : List NetipAddr :=
  entries.map (fun e => parseAddrGo e)

/-- `main`'s whitelist installation (server.go lines 49–55):
`SetIPWhitelist` is called only when `ALLOWED_IPS` is non-empty. -/
def mainSetWhitelist (entries : List (List Nat)) (s : Server) : Server :=
  if entries.length > 0 then s.SetIPWhitelist (mainWhitelist entries) else s

/-! ## Spec-level predicates

The spec speaks of addresses "inside 172.16.0.0/12", "inside
100.64.0.0/10" and "present in the allow-list".  These predicates are
written from the spec's words — an IPv4 address `a.b.c.d` lies in
172.16.0.0/12 iff `a = 172` and `16 ≤ b ≤ 31`, and in 100.64.0.0/10
iff `a = 100` and `64 ≤ b ≤ 127` — to be compared against the code's
range checks. -/

/-- The spec's "IPv4 address inside 172.16.0.0/12". -/
def In172 : NetipAddr → Prop
  | .v4 a b _ _ => a = 172 ∧ 16 ≤ b ∧ b ≤ 31
  | _ => False

/-- The spec's "IPv4 address inside 100.64.0.0/10". -/
def In100 : NetipAddr → Prop
  | .v4 a b _ _ => a = 100 ∧ 64 ≤ b ∧ b ≤ 127
  | _ => False

instance : DecidablePred In172 := by
  intro ip
  cases ip <;> simp [In172] <;> infer_instance

instance : DecidablePred In100 := by
  intro ip
  cases ip <;> simp [In100] <;> infer_instance

/-! ## Bridging lemmas -/

namespace NetipAddr

theorem bytesCompare_self (z : List Nat) : bytesCompare z z = 0 := by
  induction z with
  | nil => rfl
  | cons a as ih => simp [bytesCompare, ih]

theorem bytesCompare_eq_zero : ∀ {x y : List Nat}, bytesCompare x y = 0 → x = y := by
  intro x
  induction x with
  | nil => intro y h; cases y <;> simp_all [bytesCompare]
  | cons a as ih =>
    intro y h
    cases y with
    | nil => simp [bytesCompare] at h
    | cons b bs =>
      simp only [bytesCompare] at h
      split_ifs at h with h1 h2
      · exact absurd h (by decide)
      · have hab : a = b := by omega
        rw [hab, ih h]

theorem compare_self (ip : NetipAddr) : compare ip ip = 0 := by
  simp [compare, bytesCompare_self]

theorem compare_eq_zero : ∀ {x y : NetipAddr}, x.Canonical → y.Canonical →
    compare x y = 0 → x = y := by
  intro x y hx hy h
  cases x with
  | invalid =>
    cases y with
    | invalid => rfl
    | v4 a b c d => simp [compare, bitLen] at h
    | v6 hi lo z => simp [compare, bitLen] at h
  | v4 a b c d =>
    cases y with
    | invalid => simp [compare, bitLen] at h
    | v4 a' b' c' d' =>
      obtain ⟨ha, hb, hc, hd⟩ := hx
      obtain ⟨ha', hb', hc', hd'⟩ := hy
      simp [compare, bitLen, addrHi, addrLo, is6, v4val] at h
      simp only [v4.injEq]
      split_ifs at h <;> first | exact absurd h (by decide) | omega
    | v6 hi lo z => simp [compare, bitLen] at h
  | v6 hi lo z =>
    cases y with
    | invalid => simp [compare, bitLen] at h
    | v4 a b c d => simp [compare, bitLen] at h
    | v6 hi' lo' z' =>
      obtain ⟨hh, hl⟩ := hx
      obtain ⟨hh', hl'⟩ := hy
      simp [compare, bitLen, addrHi, addrLo, is6, zone] at h
      simp only [v6.injEq]
      split_ifs at h <;>
        first
        | exact absurd h (by decide)
        | exact ⟨by omega, by omega, bytesCompare_eq_zero h⟩

/-- Shifting right distributes over xor. -/
theorem xor_shiftRight (x y k : Nat) : (x ^^^ y) >>> k = x >>> k ^^^ y >>> k := by
  apply Nat.eq_of_testBit_eq
  intro i
  simp [Nat.testBit_shiftRight, Nat.testBit_xor]

/-- A xor-then-shift test of the top bits is a quotient comparison. -/
theorem xorShift_eq_zero (x y k : Nat) :
    ((x ^^^ y) >>> k = 0) ↔ x / 2 ^ k = y / 2 ^ k := by
  rw [xor_shiftRight, Nat.xor_eq_zero, Nat.shiftRight_eq_div_pow,
    Nat.shiftRight_eq_div_pow]

end NetipAddr

/-- `Prefix.Contains` on an IPv4 prefix and an IPv4 address compares
the quotients by `2 ^ (32 - bits)` of the two 32-bit values. -/
theorem contains_v4_iff (pa pb pc pd bits a b c d : Nat) (hbits : bits ≤ 32)
    (h1 : a < 256) (h2 : b < 256) (h3 : c < 256) (h4 : d < 256)
    (h5 : pa < 256) (h6 : pb < 256) (h7 : pc < 256) (h8 : pd < 256) :
    NetPrefix.contains ⟨.v4 pa pb pc pd, bits⟩ (.v4 a b c d) = true ↔
      NetipAddr.v4val a b c d / 2 ^ (32 - bits) =
        NetipAddr.v4val pa pb pc pd / 2 ^ (32 - bits) := by
  have ha : (0xffff00000000 + NetipAddr.v4val a b c d) % 4294967296 =
      NetipAddr.v4val a b c d := by
    unfold NetipAddr.v4val
    omega
  have hp : (0xffff00000000 + NetipAddr.v4val pa pb pc pd) % 4294967296 =
      NetipAddr.v4val pa pb pc pd := by
    unfold NetipAddr.v4val
    omega
  simp [NetPrefix.contains, NetPrefix.isValid, NetipAddr.isValid,
    NetipAddr.bitLen, NetipAddr.hasZone, NetipAddr.zone, NetipAddr.is4,
    NetipAddr.addrLo, hbits, ha, hp, NetipAddr.xorShift_eq_zero]

/-- The code's Docker-range check agrees with the spec's 172.16.0.0/12
range on canonical addresses. -/
theorem isDockerNetwork_iff (s : Server) (ip : NetipAddr) (hc : ip.Canonical) :
    s.IsDockerNetwork ip = true ↔ In172 ip := by
  cases ip with
  | invalid => simp [Server.IsDockerNetwork, NetipAddr.isValid, In172]
  | v6 hi lo z => simp [Server.IsDockerNetwork, NetipAddr.is4, In172]
  | v4 a b c d =>
    obtain ⟨ha, hb, hcc, hd⟩ := hc
    have heq : s.IsDockerNetwork (.v4 a b c d) =
        NetPrefix.contains ⟨.v4 172 16 0 0, 12⟩ (.v4 a b c d) := by
      simp [Server.IsDockerNetwork, NetipAddr.isValid, NetipAddr.is4]
    rw [heq, contains_v4_iff 172 16 0 0 12 a b c d (by omega) ha hb hcc hd
      (by omega) (by omega) (by omega) (by omega)]
    unfold NetipAddr.v4val
    simp only [In172]
    omega

/-- The code's Tailscale-range check agrees with the spec's
100.64.0.0/10 range on canonical addresses. -/
theorem isTailScale_iff (s : Server) (ip : NetipAddr) (hc : ip.Canonical) :
    s.IsTailScale ip = true ↔ In100 ip := by
  cases ip with
  | invalid => simp [Server.IsTailScale, NetipAddr.isValid, In100]
  | v6 hi lo z => simp [Server.IsTailScale, NetipAddr.is4, In100]
  | v4 a b c d =>
    obtain ⟨ha, hb, hcc, hd⟩ := hc
    have heq : s.IsTailScale (.v4 a b c d) =
        NetPrefix.contains ⟨.v4 100 64 0 0, 10⟩ (.v4 a b c d) := by
      simp [Server.IsTailScale, NetipAddr.isValid, NetipAddr.is4]
    rw [heq, contains_v4_iff 100 64 0 0 10 a b c d (by omega) ha hb hcc hd
      (by omega) (by omega) (by omega) (by omega)]
    unfold NetipAddr.v4val
    simp only [In100]
    omega

/-- A whitelisted address passes the installed scan (the scan uses
`Compare == 0`, which any address satisfies against itself). -/
theorem isIPAllowed_of_mem {s : Server} {wl : List NetipAddr} {ip : NetipAddr}
    (hw : s.whitelist = some wl) (h : ip ∈ wl) : s.isIPAllowed ip = true := by
  simp only [Server.isIPAllowed, hw, List.any_eq_true, decide_eq_true_eq]
  exact ⟨ip, h, NetipAddr.compare_self ip⟩

/-- An address passing the installed scan is in the whitelist, when
everything in sight is canonical. -/
theorem mem_of_isIPAllowed {s : Server} {wl : List NetipAddr} {ip : NetipAddr}
    (hw : s.whitelist = some wl) (hip : ip.Canonical)
    (hwl : ∀ a ∈ wl, a.Canonical) (h : s.isIPAllowed ip = true) : ip ∈ wl := by
  simp only [Server.isIPAllowed, hw, List.any_eq_true, decide_eq_true_eq] at h
  obtain ⟨a, ha, hcmp⟩ := h
  have := NetipAddr.compare_eq_zero hip (hwl a ha) hcmp
  rwa [this]

/-- The Docker-range check fails on addresses outside the spec's range. -/
theorem isDockerNetwork_false {s : Server} {ip : NetipAddr} (hc : ip.Canonical)
    (h : ¬ In172 ip) : s.IsDockerNetwork ip = false := by
  cases hb : s.IsDockerNetwork ip
  · rfl
  · exact absurd ((isDockerNetwork_iff s ip hc).mp hb) h

/-- The Tailscale-range check fails on addresses outside the spec's range. -/
theorem isTailScale_false {s : Server} {ip : NetipAddr} (hc : ip.Canonical)
    (h : ¬ In100 ip) : s.IsTailScale ip = false := by
  cases hb : s.IsTailScale ip
  · rfl
  · exact absurd ((isTailScale_iff s ip hc).mp hb) h

/-- The whitelist scan fails on addresses outside the whitelist, when
everything in sight is canonical. -/
theorem isIPAllowed_false {s : Server} {ip : NetipAddr} (hc : ip.Canonical)
    (hwl : ∀ a ∈ s.whitelistAddrs, a.Canonical)
    (h : ip ∉ s.whitelistAddrs) : s.isIPAllowed ip = false := by
  cases hw : s.whitelist with
  | none => simp [Server.isIPAllowed, hw]
  | some wl =>
    cases hb : s.isIPAllowed ip
    · rfl
    · refine absurd (mem_of_isIPAllowed hw hc ?_ hb) ?_
      · simpa [Server.whitelistAddrs, hw] using hwl
      · simpa [Server.whitelistAddrs, hw] using h

/-- An admitted connection runs the protocol phase under its admission
branch's log line. -/
theorem serveConn_eq_afterAdmission (s : Server) (c : Conn) (host : List Nat)
    (hhost : c.hostResult = .ok host)
    (hadm : admissionGate s (parseAddrGo host) ≠ .denied) :
    ∃ l, serveConn s c = serveConnAfterAdmission s c l := by
  cases hg : admissionGate s (parseAddrGo host) with
  | docker => exact ⟨.dockerConn, by simp [serveConn, hhost, hg]⟩
  | tailscale => exact ⟨.tailscaleConn, by simp [serveConn, hhost, hg]⟩
  | allowlisted => exact ⟨.allowedConn, by simp [serveConn, hhost, hg]⟩
  | denied => exact absurd hg hadm

/-! ## The claims -/

/-- C1: for a connection whose remote IP is in neither reserved range,
denial and admission are decided exactly by allow-list membership — a
non-member is denied (`ServeConn` errors, reading and writing nothing),
and a member is admitted, the handler continuing into the protocol
phase, which begins by reading the version byte. -/
theorem admission_allowlist_decides (s : Server) (c : Conn) (host : List Nat)
    (hhost : c.hostResult = .ok host)
    (hcanon : (parseAddrGo host).Canonical)
    (hwl : ∀ a ∈ s.whitelistAddrs, a.Canonical)
    (h172 : ¬ In172 (parseAddrGo host)) (h100 : ¬ In100 (parseAddrGo host)) :
    (parseAddrGo host ∉ s.whitelistAddrs →
      admissionGate s (parseAddrGo host) = .denied ∧
      serveConn s c = ⟨false, c.input, [], [.rejectedConn], none⟩)
    ∧ (parseAddrGo host ∈ s.whitelistAddrs →
      admissionGate s (parseAddrGo host) = .allowlisted ∧
      serveConn s c = serveConnAfterAdmission s c .allowedConn) := by
  have hdocker := isDockerNetwork_false (s := s) hcanon h172
  have htail := isTailScale_false (s := s) hcanon h100
  constructor
  · intro hmem
    have hallow := isIPAllowed_false hcanon hwl hmem
    have hgate : admissionGate s (parseAddrGo host) = .denied := by
      simp [admissionGate, hdocker, htail, hallow]
    exact ⟨hgate, by simp [serveConn, hhost, hgate]⟩
  · intro hmem
    cases hw : s.whitelist with
    | none => exact absurd hmem (by simp [Server.whitelistAddrs, hw])
    | some wl =>
      have hallow : s.isIPAllowed (parseAddrGo host) = true :=
        isIPAllowed_of_mem hw (by simpa [Server.whitelistAddrs, hw] using hmem)
      have hgate : admissionGate s (parseAddrGo host) = .allowlisted := by
        simp [admissionGate, hdocker, htail, hallow]
      exact ⟨hgate, by simp [serveConn, hhost, hgate]⟩

/-- Witness for C1 at a concrete allow-listed server and client. -/
theorem admission_allowlist_decides_witness :
    let s := (New ⟨[], none⟩).SetIPWhitelist [.v4 9 9 9 9]
    let c : Conn := ⟨.ok (strBytes "9.9.9.9"), none, [5, 1, 0]⟩
    (parseAddrGo (strBytes "9.9.9.9") ∉ s.whitelistAddrs →
      admissionGate s (parseAddrGo (strBytes "9.9.9.9")) = .denied ∧
      serveConn s c = ⟨false, c.input, [], [.rejectedConn], none⟩)
    ∧ (parseAddrGo (strBytes "9.9.9.9") ∈ s.whitelistAddrs →
      admissionGate s (parseAddrGo (strBytes "9.9.9.9")) = .allowlisted ∧
      serveConn s c = serveConnAfterAdmission s c .allowedConn) :=
  admission_allowlist_decides _ _ (strBytes "9.9.9.9") rfl (by decide) (by decide)
    (by decide) (by decide)

/-- C2: a remote IP inside 172.16.0.0/12 is admitted whatever the
allow-list, through the Docker branch, and logged as a Docker origin. -/
theorem admission_docker_admits (s : Server) (c : Conn) (host : List Nat)
    (hhost : c.hostResult = .ok host)
    (hcanon : (parseAddrGo host).Canonical)
    (h172 : In172 (parseAddrGo host)) :
    s.IsDockerNetwork (parseAddrGo host) = true ∧
    admissionGate s (parseAddrGo host) = .docker ∧
    (serveConn s c).logs.head? = some .dockerConn := by
  have hd := (isDockerNetwork_iff s _ hcanon).mpr h172
  have hgate : admissionGate s (parseAddrGo host) = .docker := by
    simp [admissionGate, hd]
  refine ⟨hd, hgate, ?_⟩
  simp [serveConn, hhost, hgate, serveConnAfterAdmission]

/-- Witness for C2 at a Docker-range client against a non-empty
allow-list that does not contain it. -/
theorem admission_docker_admits_witness :
    let s := (New ⟨[], none⟩).SetIPWhitelist [.v4 9 9 9 9]
    let c : Conn := ⟨.ok (strBytes "172.16.0.1"), none, [5, 1, 0]⟩
    s.IsDockerNetwork (parseAddrGo (strBytes "172.16.0.1")) = true ∧
    admissionGate s (parseAddrGo (strBytes "172.16.0.1")) = .docker ∧
    (serveConn s c).logs.head? = some .dockerConn :=
  admission_docker_admits _ _ (strBytes "172.16.0.1") rfl (by decide) (by decide)

/-- C3: a remote IP inside 100.64.0.0/10 (and not in 172.16.0.0/12) is
admitted whatever the allow-list, through the Tailscale branch. -/
theorem admission_tailscale_admits (s : Server) (c : Conn) (host : List Nat)
    (hhost : c.hostResult = .ok host)
    (hcanon : (parseAddrGo host).Canonical)
    (h100 : In100 (parseAddrGo host)) (h172 : ¬ In172 (parseAddrGo host)) :
    s.IsTailScale (parseAddrGo host) = true ∧
    admissionGate s (parseAddrGo host) = .tailscale ∧
    (serveConn s c).logs.head? = some .tailscaleConn := by
  have ht := (isTailScale_iff s _ hcanon).mpr h100
  have hd := isDockerNetwork_false (s := s) hcanon h172
  have hgate : admissionGate s (parseAddrGo host) = .tailscale := by
    simp [admissionGate, hd, ht]
  refine ⟨ht, hgate, ?_⟩
  simp [serveConn, hhost, hgate, serveConnAfterAdmission]

/-- Witness for C3 at a CGNAT-range client. -/
theorem admission_tailscale_admits_witness :
    let s := (New ⟨[], none⟩).SetIPWhitelist [.v4 9 9 9 9]
    let c : Conn := ⟨.ok (strBytes "100.100.1.2"), none, [5, 1, 0]⟩
    s.IsTailScale (parseAddrGo (strBytes "100.100.1.2")) = true ∧
    admissionGate s (parseAddrGo (strBytes "100.100.1.2")) = .tailscale ∧
    (serveConn s c).logs.head? = some .tailscaleConn :=
  admission_tailscale_admits _ _ (strBytes "100.100.1.2") rfl (by decide) (by decide)
    (by decide)

/-- C8: on every address that is not a valid IPv4 address (the zero
Addr or an IPv6 address), both reserved-range checks return false, so
the admission decision reduces to the allow-list check and the
otherwise-deny rule. -/
theorem non_ipv4_gate_reduces (s : Server) (ip : NetipAddr) (h : ip.is4 = false) :
    s.IsDockerNetwork ip = false ∧ s.IsTailScale ip = false ∧
    admissionGate s ip = (if s.isIPAllowed ip then .allowlisted else .denied) := by
  have hd : s.IsDockerNetwork ip = false := by
    simp [Server.IsDockerNetwork, h]
  have ht : s.IsTailScale ip = false := by
    simp [Server.IsTailScale, h]
  exact ⟨hd, ht, by simp [admissionGate, hd, ht]⟩

/-- Witness for C8 at the zero Addr (a parse failure) and an IPv6
address. -/
theorem non_ipv4_gate_reduces_witness :
    NetipAddr.is4 .invalid = false ∧
    ((New ⟨[], none⟩).IsDockerNetwork .invalid = false ∧
      (New ⟨[], none⟩).IsTailScale .invalid = false ∧
      admissionGate (New ⟨[], none⟩) .invalid =
        (if (New ⟨[], none⟩).isIPAllowed .invalid then .allowlisted else .denied)) ∧
    ((New ⟨[], none⟩).IsDockerNetwork (.v6 1 2 []) = false ∧
      (New ⟨[], none⟩).IsTailScale (.v6 1 2 []) = false ∧
      admissionGate (New ⟨[], none⟩) (.v6 1 2 []) =
        (if (New ⟨[], none⟩).isIPAllowed (.v6 1 2 []) then .allowlisted else .denied)) :=
  ⟨by decide, non_ipv4_gate_reduces _ _ (by decide),
    non_ipv4_gate_reduces _ _ (by decide)⟩

/-- C9: a denied connection sees no protocol interaction at all —
`ServeConn` errors with the client's input unread, nothing written, and
only the rejection logged, strictly before the version-byte read. -/
theorem denied_no_protocol_io (s : Server) (c : Conn) (host : List Nat)
    (hhost : c.hostResult = .ok host)
    (hadm : admissionGate s (parseAddrGo host) = .denied) :
    serveConn s c = ⟨false, c.input, [], [.rejectedConn], none⟩ := by
  simp [serveConn, hhost, hadm]

/-- Witness for C9 at a public client address against the default
deny-all server. -/
theorem denied_no_protocol_io_witness :
    serveConn (New ⟨[], none⟩) ⟨.ok (strBytes "8.8.8.8"), none, [5, 1, 0]⟩ =
      ⟨false, [5, 1, 0], [], [.rejectedConn], none⟩ :=
  denied_no_protocol_io _ _ (strBytes "8.8.8.8") rfl (by decide)

/-- C4: after admission, a first protocol byte other than 5 is fatal —
the handler errors (so the connection closes) with no reply bytes
written, and with only that one byte consumed, before any further
handshake byte is read. -/
theorem bad_version_closes (s : Server) (c : Conn) (host : List Nat) (v : Nat)
    (rest : List Nat) (hhost : c.hostResult = .ok host)
    (hadm : admissionGate s (parseAddrGo host) ≠ .denied)
    (hin : c.input = v :: rest) (hv : v ≠ 5) :
    (serveConn s c).ok = false ∧ (serveConn s c).output = [] ∧
    (serveConn s c).remaining = rest := by
  obtain ⟨l, hl⟩ := serveConn_eq_afterAdmission s c host hhost hadm
  rw [hl]
  simp [serveConnAfterAdmission, protocolPhase, hin, hv]

/-- Witness for C4 at an admitted Docker-range client sending version
byte 4. -/
theorem bad_version_closes_witness :
    let c : Conn := ⟨.ok (strBytes "172.16.0.1"), none, [4, 9]⟩
    (serveConn (New ⟨[], none⟩) c).ok = false ∧
    (serveConn (New ⟨[], none⟩) c).output = [] ∧
    (serveConn (New ⟨[], none⟩) c).remaining = [9] :=
  bad_version_closes _ _ (strBytes "172.16.0.1") 4 [9] rfl (by decide) rfl (by decide)

/-- C5: a request-decoding failure closes the connection; exactly the
unrecognized-address-type failure is preceded by one reply frame with
code 8, and every other decode failure writes nothing beyond the
negotiation bytes. -/
theorem decode_failure_reply (s : Server) (c : Conn) (host : List Nat)
    (rest rest2 rest3 out : List Nat) (ctx : AuthContext) (e : ReqError)
    (hhost : c.hostResult = .ok host)
    (hadm : admissionGate s (parseAddrGo host) ≠ .denied)
    (hin : c.input = 5 :: rest)
    (hauth : authenticate s.authMethods rest = (.ok ctx, rest2, out))
    (hreq : newRequest rest2 = (.error e, rest3)) :
    (serveConn s c).ok = false ∧
    (e = .unrecognizedAddrType →
      (serveConn s c).output = out ++ [5, 8, 0, 1, 0, 0, 0, 0, 0, 0]) ∧
    (e ≠ .unrecognizedAddrType → (serveConn s c).output = out) := by
  obtain ⟨l, hl⟩ := serveConn_eq_afterAdmission s c host hhost hadm
  rw [hl]
  by_cases he : e = .unrecognizedAddrType
  · subst he
    simp [serveConnAfterAdmission, protocolPhase, hin, hauth, hreq,
      sendReplyBytes, addrTypeNotSupported]
  · simp [serveConnAfterAdmission, protocolPhase, hin, hauth, hreq, he]

/-- Witness for C5 at an admitted client sending address-type byte 2. -/
theorem decode_failure_reply_witness :
    let c : Conn := ⟨.ok (strBytes "172.16.0.1"), none,
      [5, 1, 0, 5, 1, 0, 2, 10, 0, 0, 1, 0, 80]⟩
    (serveConn (New ⟨[], none⟩) c).ok = false ∧
    (ReqError.unrecognizedAddrType = .unrecognizedAddrType →
      (serveConn (New ⟨[], none⟩) c).output =
        [5, 0] ++ [5, 8, 0, 1, 0, 0, 0, 0, 0, 0]) ∧
    (ReqError.unrecognizedAddrType ≠ .unrecognizedAddrType →
      (serveConn (New ⟨[], none⟩) c).output = [5, 0]) :=
  decode_failure_reply _ _ (strBytes "172.16.0.1")
    [1, 0, 5, 1, 0, 2, 10, 0, 0, 1, 0, 80] [5, 1, 0, 2, 10, 0, 0, 1, 0, 80]
    [10, 0, 0, 1, 0, 80] [5, 0] ⟨0, []⟩ .unrecognizedAddrType
    rfl (by decide) rfl (by decide) (by decide)

/-- C6 (the code as it stands): `ServeConn` stamps the Request's remote
address by parsing `string(client.IP)` — the raw IP byte slice read as
text — so the TCP peer 172.16.0.1:9999 is stamped with the invalid zero
address, not with its transport-layer IP; only the port survives. -/
theorem remote_addr_stamp_mangled :
    (serveConn (New ⟨[], none⟩)
        ⟨.ok (strBytes "172.16.0.1"), some ([172, 16, 0, 1], 9999),
          [5, 1, 0, 5, 1, 0, 1, 10, 0, 0, 1, 0, 80]⟩).request =
      some ⟨5, 1, ⟨[], .v4 10 0 0 1, 80⟩, some ⟨0, []⟩, some ⟨[], .invalid, 9999⟩⟩ ∧
    NetipAddr.invalid ≠ NetipAddr.v4 172 16 0 1 :=
  ⟨by decide, by decide⟩

/-- C7 as stated fails on the code: a Config supplying no
authenticators but a credential store gets only the username/password
method registered — the no-auth method is absent from the dispatch
map. -/
theorem new_credentials_no_noauth :
    (New ⟨[], some [(strBytes "alice", strBytes "secret")]⟩).authMethods.isEmpty = false ∧
    ((New ⟨[], some [(strBytes "alice", strBytes "secret")]⟩) : Server).authMethods =
      [(2, .userPass [(strBytes "alice", strBytes "secret")])] ∧
    mapLookup (New ⟨[], some [(strBytes "alice", strBytes "secret")]⟩).authMethods 0 =
      none :=
  ⟨by decide, by decide, by decide⟩

/-- `mapInsert` never empties the map. -/
theorem mapInsert_ne_nil (m : List (Nat × Authenticator)) (k : Nat)
    (v : Authenticator) : mapInsert m k v ≠ [] := by
  unfold mapInsert
  split_ifs with h
  · cases m with
    | nil => simp at h
    | cons p rest => simp
  · simp

/-- Folding `mapInsert` over authenticators keeps the map non-empty
when the accumulator or the list is non-empty. -/
theorem foldl_mapInsert_ne_nil (l : List Authenticator)
    (acc : List (Nat × Authenticator)) (h : acc ≠ [] ∨ l ≠ []) :
    l.foldl (fun m a => mapInsert m a.getCode a) acc ≠ [] := by
  induction l generalizing acc with
  | nil =>
    simp only [List.foldl]
    exact h.resolve_right (by simp)
  | cons a rest ih =>
    simp only [List.foldl]
    exact ih (mapInsert acc a.getCode a) (Or.inl (mapInsert_ne_nil acc a.getCode a))

/-- C7 amended: every server built by `New` has at least one
authenticator registered in its method-code dispatch map; when the
Config supplies no authenticators and no credential store, the no-auth
method is registered by default. -/
theorem new_auth_nonempty (conf : Config) :
    (New conf).authMethods ≠ [] ∧
    (conf.authMethods = [] → conf.credentials = none →
      mapLookup (New conf).authMethods 0 = some .noAuth) := by
  constructor
  · by_cases he : conf.authMethods.isEmpty
    · cases hc : conf.credentials with
      | none => simp [New, he, hc, mapInsert]
      | some creds => simp [New, he, hc, mapInsert]
    · have hne : conf.authMethods ≠ [] := by
        simpa [List.isEmpty_iff] using he
      simp only [New, he, if_false, Bool.false_eq_true]
      exact foldl_mapInsert_ne_nil conf.authMethods [] (Or.inr hne)
  · intro h1 h2
    simp [New, h1, h2, mapInsert, mapLookup, Authenticator.getCode]

/-- Witness for the amended C7 at the empty Config. -/
theorem new_auth_nonempty_witness :
    (New ⟨[], none⟩).authMethods ≠ [] ∧
    mapLookup (New ⟨[], none⟩).authMethods 0 = some .noAuth :=
  ⟨(new_auth_nonempty ⟨[], none⟩).1, (new_auth_nonempty ⟨[], none⟩).2 rfl rfl⟩

/-- C10: allow-list membership is exact equality of parsed values with
parse errors silently discarded on both sides — an unparsable
`ALLOWED_IPS` entry is stored as the invalid zero address, and a
connection whose remote address string also fails to parse then
compares equal to that entry and is admitted as allow-listed. -/
theorem parse_failure_admits (entries : List (List Nat)) (e : List Nat)
    (s0 : Server) (c : Conn) (host : List Nat)
    (he : e ∈ entries) (hpe : parseAddr e = none)
    (hhost : c.hostResult = .ok host) (hph : parseAddr host = none) :
    NetipAddr.invalid ∈ mainWhitelist entries ∧
    (mainSetWhitelist entries s0).isIPAllowed (parseAddrGo host) = true ∧
    admissionGate (mainSetWhitelist entries s0) (parseAddrGo host) = .allowlisted ∧
    (serveConn (mainSetWhitelist entries s0) c).logs.head? = some .allowedConn := by
  have hinv : NetipAddr.invalid ∈ mainWhitelist entries := by
    simp only [mainWhitelist, List.mem_map]
    exact ⟨e, he, by simp [parseAddrGo, hpe]⟩
  have hgo : parseAddrGo host = .invalid := by
    simp [parseAddrGo, hph]
  have hne : entries.length > 0 :=
    List.length_pos.mpr (List.ne_nil_of_mem he)
  have hset : mainSetWhitelist entries s0 = s0.SetIPWhitelist (mainWhitelist entries) := by
    simp [mainSetWhitelist, hne]
  have hallow : (mainSetWhitelist entries s0).isIPAllowed (parseAddrGo host) = true := by
    rw [hset, hgo]
    exact isIPAllowed_of_mem rfl hinv
  have hd : (mainSetWhitelist entries s0).IsDockerNetwork (parseAddrGo host) = false := by
    rw [hgo]
    simp [Server.IsDockerNetwork, NetipAddr.isValid]
  have ht : (mainSetWhitelist entries s0).IsTailScale (parseAddrGo host) = false := by
    rw [hgo]
    simp [Server.IsTailScale, NetipAddr.isValid]
  have hgate : admissionGate (mainSetWhitelist entries s0) (parseAddrGo host) =
      .allowlisted := by
    simp [admissionGate, hd, ht, hallow]
  exact ⟨hinv, hallow, hgate, by simp [serveConn, hhost, hgate, serveConnAfterAdmission]⟩

/-- Witness for C10 with the single unparsable entry "bogus" and the
unparsable remote host "oops". -/
theorem parse_failure_admits_witness :
    let c : Conn := ⟨.ok (strBytes "oops"), none, [5, 1, 0]⟩
    NetipAddr.invalid ∈ mainWhitelist [strBytes "bogus"] ∧
    (mainSetWhitelist [strBytes "bogus"] (New ⟨[], none⟩)).isIPAllowed
      (parseAddrGo (strBytes "oops")) = true ∧
    admissionGate (mainSetWhitelist [strBytes "bogus"] (New ⟨[], none⟩))
      (parseAddrGo (strBytes "oops")) = .allowlisted ∧
    (serveConn (mainSetWhitelist [strBytes "bogus"] (New ⟨[], none⟩)) c).logs.head? =
      some .allowedConn :=
  parse_failure_admits [strBytes "bogus"] (strBytes "bogus") (New ⟨[], none⟩) _
    (strBytes "oops") (by decide) (by decide) rfl (by decide)

end Socks5
